import Mathlib

/-!
Verification of the Task service (`src/Task_Service/main.py`) of the
two-service Flask task tracker.  The Flask handlers are embedded as pure
Lean functions over an explicit list-of-rows store; the peer User service
is an oracle parameter (connection error or an HTTP response), and the
SQLAlchemy session is modelled where a claim depends on commit/rollback
semantics.
-/

set_option maxHeartbeats 1000000

namespace TaskService

/-- A row of the `Task` table (main.py lines 21-24): integer primary key
`id`, string column `title` (declared `db.String(100)`, which SQLite does
not enforce), integer `user_id`. -/
structure Task where
  id : Int
  title : String
  user_id : Int
  deriving Repr, DecidableEq

/-- Outcome of the `requests.get` call used by `create_task` to verify a
user: the call either raises (connection error / timeout) or returns a
response carrying a status code. -/
inductive PeerResp where
  | connError (msg : String)
  | status (code : Nat)
  deriving Repr, DecidableEq

/-- The fields of the parsed JSON body that `create_task` reads via
`data.get('title')` and `data.get('user_id')`; `none` models an absent
key. -/
structure CreateBody where
  title : Option String
  user_id : Option Int
  deriving Repr, DecidableEq

/-- Result of a `create_task` call: HTTP status, the store after the call,
and whether the peer verification request was issued at all. -/
structure CreateResult where
  httpStatus : Nat
  store : List Task
  peerCalled : Bool
  deriving Repr, DecidableEq

/-- Embedding of `create_task` (main.py lines 26-42).  The guard
`not data or not data.get('title') or not data.get('user_id')` rejects a
missing body, a missing or empty `title`, and a missing or zero `user_id`
(Python truthiness).  Otherwise the peer is queried: an exception yields
500, a non-200 status yields 400, and a 200 status inserts the row with
the next generated id and yields 201. -/
def createTask (store : List Task) (nextId : Int) (body : Option CreateBody)
    (peer : Int → PeerResp) : CreateResult :=
  match body with
  | none => ⟨400, store, false⟩
  | some data =>
    match data.title, data.user_id with
    | some t, some u =>
      if t = "" ∨ u = 0 then ⟨400, store, false⟩
      else
        match peer u with
        | .connError _ => ⟨500, store, true⟩
        | .status code =>
          if code = 200 then ⟨201, store ++ [⟨nextId, t, u⟩], true⟩
          else ⟨400, store, true⟩
    | _, _ => ⟨400, store, false⟩

/-- Embedding of `delete_task` (main.py lines 49-56): delete the row with
the given id if present (200), else 404. -/
def deleteTask (store : List Task) (task_id : Int) : Nat × List Task :=
  if store.any (fun t => t.id == task_id) then
    (200, store.eraseP (fun t => t.id == task_id))
  else (404, store)

/-- One iteration of the `cleanup_specific_tasks` loop (main.py lines
82-86): `Task.query.get(task_id)` followed, when the row exists, by
`db.session.delete(task)` and a count increment, acting on the session's
working view of the table. -/
def cleanupStep (acc : List Task × Nat) (i : Int) : List Task × Nat :=
  if acc.1.any (fun t => t.id == i) then
    (acc.1.eraseP (fun t => t.id == i), acc.2 + 1)
  else acc

/-- The parsed JSON body of `DELETE /tasks/cleanup-specific`: absent body,
object without the `task_ids` key, `task_ids` not a list, or a list of
ids. -/
inductive CleanupBody where
  | noBody
  | noKey
  | notList
  | ids (l : List Int)
  deriving Repr, DecidableEq

/-- Embedding of `cleanup_specific_tasks` (main.py lines 69-92) on the
fault-free path.  Returns (HTTP status, committed store, deleted count). -/
def cleanupSpecific (store : List Task) (body : CleanupBody) :
    Nat × List Task × Nat :=
  match body with
  | .noBody => (400, store, 0)
  | .noKey => (400, store, 0)
  | .notList => (400, store, 0)
  | .ids l =>
    let r := l.foldl cleanupStep (store, 0)
    (200, r.1, r.2)

/-- State of the SQLAlchemy session: the committed table plus the
session's working view (committed rows with pending, unflushed-to-commit
mutations applied). -/
structure DBState where
  committed : List Task
  working : List Task
  deriving Repr, DecidableEq

/-- `db.session.commit()`: publish the working view. -/
def commitDB (w : List Task) : DBState := ⟨w, w⟩

/-- `db.session.rollback()`: discard pending mutations, restoring the
committed table. -/
def rollbackDB (c : List Task) : DBState := ⟨c, c⟩

/-- Embedding of `cleanup_tasks` (main.py lines 58-67) with fault
injection: `Task.query.delete()` empties the working view and reports the
row count; if the store raises (`fail = true`) the handler rolls back and
answers 500, otherwise it commits and answers 200. -/
def cleanupTasksFI (db : DBState) (fail : Bool) : Nat × DBState × Nat :=
  let n := db.working.length
  let w : List Task := []
  if fail then (500, rollbackDB db.committed, 0)
  else (200, commitDB w, n)

/-- Embedding of `cleanup_specific_tasks` (main.py lines 69-92) with fault
injection: `failAt = some k` raises a store exception after `k` loop
iterations, so the deletions buffered in the session are discarded by the
`rollback` in the `except` branch; `failAt = none` is the fault-free path
ending in `commit`. -/
def cleanupSpecificFI (db : DBState) (body : CleanupBody)
    (failAt : Option Nat) : Nat × DBState × Nat :=
  match body with
  | .noBody => (400, db, 0)
  | .noKey => (400, db, 0)
  | .notList => (400, db, 0)
  | .ids l =>
    match failAt with
    | some k =>
      let _buffered := (l.take k).foldl cleanupStep (db.working, 0)
      (500, rollbackDB db.committed, 0)
    | none =>
      let r := l.foldl cleanupStep (db.working, 0)
      (200, commitDB r.1, r.2)

/-- One step of `collections.Counter`: count an occurrence of key `k`,
appending a fresh entry when the key is new (Counter preserves first
insertion order of keys). -/
def bumpKey (acc : List (Int × Nat)) (k : Int) : List (Int × Nat) :=
  if acc.any (fun p => p.1 == k) then
    acc.map (fun p => if p.1 == k then (p.1, p.2 + 1) else p)
  else acc ++ [(k, 1)]

/-- The items of `Counter(task.user_id for task in all_tasks)` in the
Counter's iteration order: first occurrence order of each owner id, paired
with its multiplicity. -/
def counterItems (ks : List Int) : List (Int × Nat) := ks.foldl bumpKey []

/-- Insert one counter item into a count-descending list, placing it
before items of equal or smaller count that were encountered later, as the
stable selection in `Counter.most_common` does. -/
def insertByCount (x : Int × Nat) : List (Int × Nat) → List (Int × Nat)
  | [] => [x]
  | y :: ys => if y.2 ≤ x.2 then x :: y :: ys else y :: insertByCount x ys

/-- Stable sort of counter items by count, descending. -/
def sortByCount : List (Int × Nat) → List (Int × Nat)
  | [] => []
  | x :: xs => insertByCount x (sortByCount xs)

/-- `Counter.most_common(3)` (main.py line 139): the three largest counts,
descending, ties kept in Counter (first-encounter) order. -/
def mostCommon3 (items : List (Int × Nat)) : List (Int × Nat) :=
  (sortByCount items).take 3

/-- Insert a task into an id-descending list (ids are unique in the
store). -/
def insertById (x : Task) : List Task → List Task
  | [] => [x]
  | y :: ys => if y.id ≤ x.id then x :: y :: ys else y :: insertById x ys

/-- Sort tasks by id, descending (`Task.query.order_by(Task.id.desc())`). -/
def sortByIdDesc : List Task → List Task
  | [] => []
  | x :: xs => insertById x (sortByIdDesc xs)

/-- `Task.query.order_by(Task.id.desc()).limit(5).all()` (main.py line
112). -/
def recentTasks (tasks : List Task) : List Task := (sortByIdDesc tasks).take 5

/-- Outcome of `requests.get('http://localhost:5001/users', timeout=2)`
(main.py line 118): a raised connection error / timeout, or a response
with a status code and (when parsed) the list of users. -/
inductive PeerUsers where
  | connError (msg : String)
  | resp (code : Nat) (users : List Int)
  deriving Repr, DecidableEq

/-- Round a rational to the nearest integer, ties to even, as Python's
`round` does on the exact value. -/
def roundHalfEven (q : ℚ) : ℤ :=
  let f := ⌊q⌋
  let r := q - f
  if r < 1/2 then f
  else if 1/2 < r then f + 1
  else if f % 2 = 0 then f else f + 1

/-- Python `round(x, 2)` on the exact rational value. -/
def round2 (q : ℚ) : ℚ := (roundHalfEven (q * 100) : ℚ) / 100

/-- The `users` object of the stats payload (`user_service_stats`, main.py
lines 116-123). -/
structure UsersStats where
  total_users : Nat
  error : Option String
  deriving Repr, DecidableEq

/-- The stats payload of `GET /tasks/stats` (main.py lines 142-159); the
wall-clock `timestamp` is omitted (no claim depends on it) and the nested
`productivity_metrics` and `system` objects are flattened into named
fields. -/
structure Snapshot where
  total_tasks : Nat
  users_with_tasks : Nat
  recent_tasks : List Task
  top_productive_users : List (Int × Nat)
  users : UsersStats
  avg_tasks_per_user : ℚ
  avg_tasks_per_active_user : ℚ
  system_status : String
  task_service : String
  user_service : String
  deriving Repr, DecidableEq

/-- Embedding of `get_task_stats` (main.py lines 94-164).  `tasks` is the
store at read time and `peer` the outcome of the single users request.
Only a raised exception sets `user_service_stats['error']`; a non-200
response leaves both the error `None` and `total_users` at 0.  Returns
(HTTP status, snapshot). -/
def getTaskStats (tasks : List Task) (peer : PeerUsers) : Nat × Snapshot :=
  let total_tasks := tasks.length
  let user_task_counts := counterItems (tasks.map Task.user_id)
  let users_with_tasks := user_task_counts.length
  let recent := recentTasks tasks
  let userStats : UsersStats :=
    match peer with
    | .connError msg => ⟨0, some ("User service unavailable: " ++ msg)⟩
    | .resp code users => if code = 200 then ⟨users.length, none⟩ else ⟨0, none⟩
  let avg_tasks_per_user : ℚ :=
    if 0 < userStats.total_users ∧ 0 < total_tasks then
      round2 ((total_tasks : ℚ) / (userStats.total_users : ℚ))
    else 0
  let avg_tasks_per_active_user : ℚ :=
    if 0 < users_with_tasks then
      round2 ((total_tasks : ℚ) / (users_with_tasks : ℚ))
    else 0
  let top_users := mostCommon3 user_task_counts
  let status := if userStats.error = none then "healthy" else "partial"
  let userSvc := if userStats.error = none then "online" else "offline"
  (200, ⟨total_tasks, users_with_tasks, recent, top_users, userStats,
    avg_tasks_per_user, avg_tasks_per_active_user, status, "online", userSvc⟩)

/-- A store holding `n` tasks, all owned by `a`, with ids 1..n. -/
def mkSoloStore (n : Nat) (a : Int) : List Task :=
  (List.range n).map (fun i : Nat => ⟨(i : Int) + 1, "task", a⟩)

theorem round2_zero : round2 0 = 0 := by
  norm_num [round2, roundHalfEven]

/-- The guarded average computed by `get_task_stats` (which also tests
`total_tasks > 0`) agrees with the spec's formula, which only guards the
denominator: when the numerator is 0 both sides are 0. -/
theorem code_avg_eq_spec_avg (n u : Nat) :
    (if 0 < u ∧ 0 < n then round2 ((n : ℚ) / (u : ℚ)) else 0) =
      if u = 0 then 0 else round2 ((n : ℚ) / (u : ℚ)) := by
  rcases Nat.eq_zero_or_pos u with hu | hu
  · subst hu; simp
  · rcases Nat.eq_zero_or_pos n with hn | hn
    · subst hn
      rw [if_neg (by omega), if_neg (by omega)]
      rw [Nat.cast_zero, zero_div, round2_zero]
    · rw [if_pos ⟨hu, hn⟩, if_neg (by omega)]

/-- C1: when the users request raises a connection error or timeout,
`GET /tasks/stats` still answers 200 with a complete snapshot in which
`system.status = "partial"`, `users.error` is non-null and
`users.total_users` is 0; the peer failure never aborts the snapshot and
never yields a 5xx. -/
theorem stats_peer_failure_degrades (tasks : List Task) (msg : String) :
    (getTaskStats tasks (.connError msg)).1 = 200 ∧
    (getTaskStats tasks (.connError msg)).2.system_status = "partial" ∧
    (getTaskStats tasks (.connError msg)).2.users.error ≠ none ∧
    (getTaskStats tasks (.connError msg)).2.users.total_users = 0 := by
  refine ⟨rfl, rfl, ?_, rfl⟩
  show some _ ≠ none
  exact fun h => Option.noConfusion h

/-- C2 fails on the code: a peer response with status 404 (user service
reachable but not answering 200) leaves `user_service_stats['error']` at
`None`, so the snapshot reports `system.status = "healthy"`, not
`"partial"`, contradicting the claim that a non-200 peer response counts
as the peer call not succeeding. -/
theorem status_ignores_non200_code :
    (getTaskStats [] (.resp 404 [])).2.system_status = "healthy" ∧
    ¬(getTaskStats [] (.resp 404 [])).2.system_status = "partial" ∧
    (getTaskStats [] (.resp 404 [])).2.users.total_users = 0 := by
  refine ⟨rfl, ?_, rfl⟩
  decide

/-- C2 (amended): `system.status` is `"healthy"` iff the users request
raised no connection error or timeout; it depends on no other data in the
snapshot, and in particular a peer response with a non-200 status code
still yields `"healthy"` while leaving `total_users` at 0. -/
theorem status_healthy_iff_no_exception (tasks : List Task) (peer : PeerUsers)
    (code : Nat) (users : List Int) (hcode : code ≠ 200) :
    ((getTaskStats tasks peer).2.system_status = "healthy" ↔
      ∀ msg, peer ≠ .connError msg) ∧
    ((getTaskStats tasks (.resp code users)).2.system_status = "healthy" ∧
      (getTaskStats tasks (.resp code users)).2.users.total_users = 0) := by
  constructor
  · cases peer with
    | connError m => simp [getTaskStats]
    | resp c us =>
      by_cases hc : c = 200 <;> simp [getTaskStats, hc]
  · constructor
    · show (if (if code = 200 then _ else _ : UsersStats).error = none
        then "healthy" else "partial") = "healthy"
      rw [if_neg hcode]
      rfl
    · show (if code = 200 then _ else (⟨0, none⟩ : UsersStats)).total_users = 0
      rw [if_neg hcode]

/-- Witness for C2 (amended) at a concrete input: an empty store and a
404 peer response. -/
theorem status_healthy_iff_no_exception_witness :
    (getTaskStats [] (.resp 404 [])).2.system_status = "healthy" ∧
    (getTaskStats [] (.resp 404 [])).2.users.total_users = 0 :=
  (status_healthy_iff_no_exception [] (.resp 200 []) 404 [] (by decide)).2

/-- C3: in every snapshot `avg_tasks_per_user` equals
`total_tasks / remote_total_users` rounded to 2 decimal places, 0 when
`remote_total_users` is 0; and `avg_tasks_per_active_user` equals
`total_tasks / users_with_tasks` rounded to 2 decimal places, 0 when
`users_with_tasks` is 0. -/
theorem avg_metrics_formula (tasks : List Task) (peer : PeerUsers) :
    ((getTaskStats tasks peer).2.avg_tasks_per_user =
      if (getTaskStats tasks peer).2.users.total_users = 0 then 0
      else round2 (((getTaskStats tasks peer).2.total_tasks : ℚ) /
        ((getTaskStats tasks peer).2.users.total_users : ℚ))) ∧
    ((getTaskStats tasks peer).2.avg_tasks_per_active_user =
      if (getTaskStats tasks peer).2.users_with_tasks = 0 then 0
      else round2 (((getTaskStats tasks peer).2.total_tasks : ℚ) /
        ((getTaskStats tasks peer).2.users_with_tasks : ℚ))) := by
  constructor
  · exact code_avg_eq_spec_avg tasks.length
      (getTaskStats tasks peer).2.users.total_users
  · show (if 0 < (counterItems (tasks.map Task.user_id)).length then _ else _) = _
    rcases Nat.eq_zero_or_pos (counterItems (tasks.map Task.user_id)).length
      with hw | hw
    · rw [if_neg (by omega)]
      show (0 : ℚ) = if (counterItems (tasks.map Task.user_id)).length = 0
        then 0 else _
      rw [if_pos hw]
    · rw [if_pos hw]
      show _ = if (counterItems (tasks.map Task.user_id)).length = 0 then _ else _
      rw [if_neg (by omega)]
      rfl

/-- C9: for both bulk delete endpoints, an injected store error yields 500
with the committed table unchanged (the session's partial mutations are
rolled back), and on success the deletions are committed atomically. -/
theorem bulk_delete_error_rollback (db : List Task) (l : List Int) (k : Nat) :
    cleanupTasksFI ⟨db, db⟩ true = (500, ⟨db, db⟩, 0) ∧
    cleanupTasksFI ⟨db, db⟩ false = (200, ⟨[], []⟩, db.length) ∧
    cleanupSpecificFI ⟨db, db⟩ (.ids l) (some k) = (500, ⟨db, db⟩, 0) ∧
    cleanupSpecificFI ⟨db, db⟩ (.ids l) none =
      (200, ⟨(l.foldl cleanupStep (db, 0)).1, (l.foldl cleanupStep (db, 0)).1⟩,
        (l.foldl cleanupStep (db, 0)).2) := by
  exact ⟨rfl, rfl, rfl, rfl⟩

/-- C10: a POST /tasks body whose `user_id` is 0, or whose `title` is the
empty string, is rejected with 400 before the peer verification request is
issued, for every peer behaviour (so even if a user with id 0 exists):
the `data.get(...)` presence check treats falsy values as missing. -/
theorem falsy_body_rejected_before_peer (store : List Task) (nextId : Int)
    (peer : Int → PeerResp) (t : String) (u : Int) :
    createTask store nextId (some ⟨some t, some 0⟩) peer = ⟨400, store, false⟩ ∧
    createTask store nextId (some ⟨some "", some u⟩) peer = ⟨400, store, false⟩ := by
  constructor
  · simp [createTask]
  · simp [createTask]

/-- C6: `POST /tasks` returns 400 on a missing body or a missing title or
user_id; 500 on a peer connection error during verification, with no
insertion; 400 (never 201) on a non-200 peer response; and a row is
inserted only when the peer confirmed the owner with a 200. -/
theorem create_task_verification_gate (store : List Task) (nextId : Int)
    (peer : Int → PeerResp) (t : String) (u : Int) (msg : String) (code : Nat)
    (ht : t ≠ "") (hu : u ≠ 0) :
    createTask store nextId none peer = ⟨400, store, false⟩ ∧
    (∀ ou, createTask store nextId (some ⟨none, ou⟩) peer = ⟨400, store, false⟩) ∧
    (∀ ot, createTask store nextId (some ⟨ot, none⟩) peer = ⟨400, store, false⟩) ∧
    (peer u = .connError msg →
      createTask store nextId (some ⟨some t, some u⟩) peer = ⟨500, store, true⟩) ∧
    (peer u = .status code → code ≠ 200 →
      createTask store nextId (some ⟨some t, some u⟩) peer = ⟨400, store, true⟩) ∧
    (∀ body, (createTask store nextId body peer).store ≠ store →
      ∃ t' u', body = some ⟨some t', some u'⟩ ∧ peer u' = .status 200 ∧
        createTask store nextId body peer =
          ⟨201, store ++ [⟨nextId, t', u'⟩], true⟩) := by
  refine ⟨rfl, ?_, ?_, ?_, ?_, ?_⟩
  · intro ou; cases ou <;> rfl
  · intro ot; cases ot <;> rfl
  · intro hpeer
    simp only [createTask]
    rw [if_neg (by simp [ht, hu]), hpeer]
  · intro hpeer hcode
    simp only [createTask]
    rw [if_neg (by simp [ht, hu]), hpeer]
    simp [hcode]
  · intro body hne
    cases body with
    | none => exact absurd rfl hne
    | some data =>
      obtain ⟨ot, ou⟩ := data
      cases ot with
      | none => cases ou <;> exact absurd rfl hne
      | some t' =>
        cases ou with
        | none => exact absurd rfl hne
        | some u' =>
          by_cases hcond : t' = "" ∨ u' = 0
          · exact absurd (by simp [createTask, hcond]) hne
          · cases hp : peer u' with
            | connError m =>
              exact absurd (by simp [createTask, hcond, hp]) hne
            | status c =>
              by_cases hc : c = 200
              · subst hc
                exact ⟨t', u', rfl, hp, by simp [createTask, hcond, hp]⟩
              · exact absurd (by simp [createTask, hcond, hp, hc]) hne

/-- Witness for C6 at concrete inputs: a valid body whose owner the peer
rejects with 404 yields 400 with no insertion. -/
theorem create_task_verification_gate_witness :
    createTask [] 1 (some ⟨some "t", some 5⟩) (fun _ => PeerResp.status 404) =
      ⟨400, [], true⟩ :=
  (create_task_verification_gate [] 1 (fun _ => PeerResp.status 404) "t" 5 "m"
    404 (by decide) (by decide)).2.2.2.2.1 rfl (by decide)

/-- A title of 101 characters. -/
def longTitle : String := String.mk (List.replicate 101 'a')

/-- C8 fails on the code: `create_task` never checks the title length
(and SQLite does not enforce the declared `db.String(100)`), so a
101-character title is accepted with 201 and stored. -/
theorem overlong_title_accepted :
    (createTask [] 1 (some ⟨some longTitle, some 7⟩)
      (fun _ => PeerResp.status 200)).httpStatus = 201 ∧
    (createTask [] 1 (some ⟨some longTitle, some 7⟩)
      (fun _ => PeerResp.status 200)).store = [⟨1, longTitle, 7⟩] ∧
    100 < longTitle.length := by
  refine ⟨?_, ?_, ?_⟩ <;> decide

theorem cleanupStep_fst_sublist (acc : List Task × Nat) (i : Int) :
    List.Sublist (cleanupStep acc i).1 acc.1 := by
  unfold cleanupStep
  split
  · exact List.eraseP_sublist _
  · exact List.Sublist.refl _

theorem foldl_cleanupStep_fst_sublist (l : List Int) (acc : List Task × Nat) :
    List.Sublist (l.foldl cleanupStep acc).1 acc.1 := by
  induction l generalizing acc with
  | nil => exact List.Sublist.refl _
  | cons i rest ih =>
    exact (ih (cleanupStep acc i)).trans (cleanupStep_fst_sublist acc i)

/-- C8 (amended): every row ever stored was inserted by `create_task`
with a truthy (hence non-empty) title, a nonzero owner id, and a peer 200
confirmation that the owner existed at creation time; every other
operation only removes rows, never rewriting one in place.  (The declared
100-character bound on `title` is not enforced at creation.) -/
theorem stored_task_invariant (store : List Task) (nextId : Int)
    (body : Option CreateBody) (peer : Int → PeerResp) (i : Int)
    (cb : CleanupBody) (db : List Task) :
    (∀ t ∈ (createTask store nextId body peer).store,
      t ∈ store ∨
        (t.title ≠ "" ∧ t.user_id ≠ 0 ∧ peer t.user_id = .status 200)) ∧
    (∀ t ∈ (deleteTask store i).2, t ∈ store) ∧
    (∀ t ∈ (cleanupSpecific store cb).2.1, t ∈ store) ∧
    (∀ t ∈ (cleanupTasksFI ⟨db, db⟩ false).2.1.committed, t ∈ db) := by
  refine ⟨?_, ?_, ?_, ?_⟩
  · intro t ht
    cases body with
    | none => exact Or.inl ht
    | some data =>
      obtain ⟨ot, ou⟩ := data
      cases ot with
      | none =>
        cases ou with
        | none => exact Or.inl ht
        | some u' => exact Or.inl ht
      | some t' =>
        cases ou with
        | none => exact Or.inl ht
        | some u' =>
          by_cases hcond : t' = "" ∨ u' = 0
          · rw [show createTask store nextId (some ⟨some t', some u'⟩) peer =
              ⟨400, store, false⟩ from by simp [createTask, hcond]] at ht
            exact Or.inl ht
          · cases hp : peer u' with
            | connError m =>
              rw [show createTask store nextId (some ⟨some t', some u'⟩) peer =
                ⟨500, store, true⟩ from by simp [createTask, hcond, hp]] at ht
              exact Or.inl ht
            | status c =>
              by_cases hc : c = 200
              · subst hc
                rw [show createTask store nextId (some ⟨some t', some u'⟩) peer =
                  ⟨201, store ++ [⟨nextId, t', u'⟩], true⟩ from by
                    simp [createTask, hcond, hp]] at ht
                rcases List.mem_append.mp ht with h | h
                · exact Or.inl h
                · rcases List.mem_singleton.mp h with rfl
                  push_neg at hcond
                  exact Or.inr ⟨hcond.1, hcond.2, hp⟩
              · rw [show createTask store nextId (some ⟨some t', some u'⟩) peer =
                  ⟨400, store, true⟩ from by simp [createTask, hcond, hp, hc]] at ht
                exact Or.inl ht
  · intro t ht
    unfold deleteTask at ht
    split at ht
    · exact (List.eraseP_sublist store).mem ht
    · exact ht
  · intro t ht
    cases cb with
    | noBody => exact ht
    | noKey => exact ht
    | notList => exact ht
    | ids l => exact (foldl_cleanupStep_fst_sublist l (store, 0)).mem ht
  · intro t ht
    exact absurd ht (List.not_mem_nil t)

/-- Witness for C8 (amended) at a concrete input: the row inserted for a
valid creation is new and validated. -/
theorem stored_task_invariant_witness :
    (⟨1, "x", 3⟩ : Task) ∈ ([] : List Task) ∨
      (("x" : String) ≠ "" ∧ (3 : Int) ≠ 0 ∧
        (fun _ => PeerResp.status 200) (3 : Int) = PeerResp.status 200) :=
  (stored_task_invariant [] 1 (some ⟨some "x", some 3⟩)
    (fun _ => PeerResp.status 200) 0 .noBody []).1 ⟨1, "x", 3⟩ (by decide)

theorem perm_insertByCount (x : Int × Nat) (l : List (Int × Nat)) :
    List.Perm (insertByCount x l) (x :: l) := by
  induction l with
  | nil => exact List.Perm.refl _
  | cons y ys ih =>
    rw [insertByCount]
    split
    · exact List.Perm.refl _
    · exact (List.Perm.cons y ih).trans (List.Perm.swap x y ys)

theorem mem_insertByCount (b x : Int × Nat) (l : List (Int × Nat)) :
    b ∈ insertByCount x l ↔ b = x ∨ b ∈ l := by
  rw [(perm_insertByCount x l).mem_iff, List.mem_cons]

theorem pairwise_insertByCount (x : Int × Nat) (l : List (Int × Nat))
    (h : l.Pairwise (fun p q => q.2 ≤ p.2)) :
    (insertByCount x l).Pairwise (fun p q => q.2 ≤ p.2) := by
  induction l with
  | nil => exact List.pairwise_singleton _ _
  | cons y ys ih =>
    rw [List.pairwise_cons] at h
    obtain ⟨hy, hys⟩ := h
    rw [insertByCount]
    split
    case isTrue hle =>
      rw [List.pairwise_cons]
      refine ⟨?_, List.pairwise_cons.mpr ⟨hy, hys⟩⟩
      intro b hb
      rcases List.mem_cons.mp hb with rfl | hb
      · exact hle
      · exact le_trans (hy b hb) hle
    case isFalse hgt =>
      rw [List.pairwise_cons]
      refine ⟨?_, ih hys⟩
      intro b hb
      rcases (mem_insertByCount b x ys).mp hb with rfl | hb
      · exact le_of_not_le hgt
      · exact hy b hb

theorem perm_sortByCount (l : List (Int × Nat)) :
    List.Perm (sortByCount l) l := by
  induction l with
  | nil => exact List.Perm.refl _
  | cons x xs ih =>
    exact (perm_insertByCount x (sortByCount xs)).trans (List.Perm.cons x ih)

theorem pairwise_sortByCount (l : List (Int × Nat)) :
    (sortByCount l).Pairwise (fun p q => q.2 ≤ p.2) := by
  induction l with
  | nil => exact List.Pairwise.nil
  | cons x xs ih => exact pairwise_insertByCount x (sortByCount xs) ih

theorem filter_insertByCount (x : Int × Nat) (l : List (Int × Nat)) (c : Nat) :
    (insertByCount x l).filter (fun p => p.2 == c) =
      if x.2 = c then x :: l.filter (fun p => p.2 == c)
      else l.filter (fun p => p.2 == c) := by
  induction l with
  | nil =>
    by_cases hx : x.2 = c <;> simp [insertByCount, List.filter_cons, hx]
  | cons y ys ih =>
    rw [insertByCount]
    by_cases hyx : y.2 ≤ x.2
    · rw [if_pos hyx]
      by_cases hx : x.2 = c <;> simp [List.filter_cons, hx]
    · rw [if_neg hyx]
      by_cases hx : x.2 = c
      · have hyc : ¬y.2 = c := by omega
        simp [List.filter_cons, hyc, ih, hx]
      · by_cases hyc : y.2 = c <;> simp [List.filter_cons, hyc, ih, hx]

theorem filter_sortByCount (l : List (Int × Nat)) (c : Nat) :
    (sortByCount l).filter (fun p => p.2 == c) =
      l.filter (fun p => p.2 == c) := by
  induction l with
  | nil => rfl
  | cons x xs ih =>
    rw [show sortByCount (x :: xs) = insertByCount x (sortByCount xs) from rfl,
      filter_insertByCount]
    by_cases hx : x.2 = c <;> simp [List.filter_cons, hx, ih]

theorem mkSoloStore_map_user_id (n : Nat) (a : Int) :
    (mkSoloStore n a).map Task.user_id = List.replicate n a := by
  induction n with
  | zero => rfl
  | succ m ih =>
    rw [mkSoloStore, List.range_succ, List.map_append, List.map_append,
      List.replicate_succ']
    congr 1

theorem foldl_bumpKey_replicate (a : Int) (m k : Nat) :
    List.foldl bumpKey [(a, k)] (List.replicate m a) = [(a, k + m)] := by
  induction m generalizing k with
  | zero => simp
  | succ m ih =>
    rw [List.replicate_succ, List.foldl_cons]
    have hb : bumpKey [(a, k)] a = [(a, k + 1)] := by simp [bumpKey]
    have harith : k + 1 + m = k + (m + 1) := by omega
    rw [hb, ih (k + 1), harith]

theorem counterItems_replicate (n : Nat) (a : Int) (hn : 0 < n) :
    counterItems (List.replicate n a) = [(a, n)] := by
  obtain ⟨m, rfl⟩ : ∃ m, n = m + 1 := ⟨n - 1, by omega⟩
  rw [counterItems, List.replicate_succ, List.foldl_cons]
  have hb : bumpKey [] a = [(a, 1)] := by simp [bumpKey]
  have harith : 1 + m = m + 1 := by omega
  rw [hb, foldl_bumpKey_replicate a m 1, harith]

/-- C4: `top_productive_users` has at most 3 entries, drawn from the
owner/count items, in descending count order, with ties kept in
first-encounter order (the filter at any count value is a prefix of the
Counter's items at that count); any owner left out has a count no larger
than every listed one; and for a store of `n ≥ 1` tasks all owned by `a`
(owner `b` owning none), the list is exactly `[(a, n)]` — `a` ranked
first with count exactly `n` and `b` nowhere. -/
theorem top_users_ranking (tasks : List Task) (peer : PeerUsers) (n : Nat)
    (a b : Int) (hn : 0 < n) (hab : a ≠ b) :
    ((getTaskStats tasks peer).2.top_productive_users.length ≤ 3) ∧
    ((getTaskStats tasks peer).2.top_productive_users.Pairwise
      (fun p q => q.2 ≤ p.2)) ∧
    (∀ q ∈ (getTaskStats tasks peer).2.top_productive_users,
      q ∈ counterItems (tasks.map Task.user_id)) ∧
    (∀ c, List.IsPrefix
      ((getTaskStats tasks peer).2.top_productive_users.filter
        (fun p => p.2 == c))
      ((counterItems (tasks.map Task.user_id)).filter (fun p => p.2 == c))) ∧
    (∀ p ∈ counterItems (tasks.map Task.user_id),
      p ∉ (getTaskStats tasks peer).2.top_productive_users →
      ∀ q ∈ (getTaskStats tasks peer).2.top_productive_users, p.2 ≤ q.2) ∧
    ((getTaskStats (mkSoloStore n a) peer).2.top_productive_users = [(a, n)] ∧
      ∀ q ∈ (getTaskStats (mkSoloStore n a) peer).2.top_productive_users,
        q.1 ≠ b) := by
  have htop : (getTaskStats tasks peer).2.top_productive_users =
      (sortByCount (counterItems (tasks.map Task.user_id))).take 3 := rfl
  have hsolo : (getTaskStats (mkSoloStore n a) peer).2.top_productive_users =
      [(a, n)] := by
    show (sortByCount (counterItems ((mkSoloStore n a).map Task.user_id))).take 3
      = [(a, n)]
    rw [mkSoloStore_map_user_id, counterItems_replicate n a hn]
    rfl
  refine ⟨?_, ?_, ?_, ?_, ?_, hsolo, ?_⟩
  · rw [htop]
    exact List.length_take_le 3 _
  · rw [htop]
    exact (pairwise_sortByCount _).sublist (List.take_sublist 3 _)
  · intro q hq
    rw [htop] at hq
    exact (perm_sortByCount _).mem_iff.mp (List.mem_of_mem_take hq)
  · intro c
    rw [htop, ← filter_sortByCount (counterItems (tasks.map Task.user_id)) c]
    exact List.IsPrefix.filter _ (List.take_prefix 3 _)
  · intro p hp hnp q hq
    rw [htop] at hnp hq
    have hps : p ∈ sortByCount (counterItems (tasks.map Task.user_id)) :=
      (perm_sortByCount _).mem_iff.mpr hp
    rw [← List.take_append_drop 3
      (sortByCount (counterItems (tasks.map Task.user_id)))] at hps
    have hpd : p ∈ (sortByCount (counterItems (tasks.map Task.user_id))).drop 3 := by
      rcases List.mem_append.mp hps with h | h
      · exact absurd h hnp
      · exact h
    have hpw := pairwise_sortByCount (counterItems (tasks.map Task.user_id))
    rw [← List.take_append_drop 3
      (sortByCount (counterItems (tasks.map Task.user_id)))] at hpw
    exact (List.pairwise_append.mp hpw).2.2 q hq p hpd
  · intro q hq
    rw [hsolo] at hq
    rcases List.mem_singleton.mp hq with rfl
    exact hab

/-- Witness for C4 at concrete inputs: two tasks owned by user 0, none by
user 1. -/
theorem top_users_ranking_witness :
    (getTaskStats (mkSoloStore 2 0) (.resp 200 [])).2.top_productive_users =
      [(0, 2)] :=
  (top_users_ranking [] (PeerUsers.resp 200 []) 2 0 1 (by decide)
    (by decide)).2.2.2.2.2.1

theorem perm_insertById (x : Task) (l : List Task) :
    List.Perm (insertById x l) (x :: l) := by
  induction l with
  | nil => exact List.Perm.refl _
  | cons y ys ih =>
    rw [insertById]
    split
    · exact List.Perm.refl _
    · exact (List.Perm.cons y ih).trans (List.Perm.swap x y ys)

theorem mem_insertById (b x : Task) (l : List Task) :
    b ∈ insertById x l ↔ b = x ∨ b ∈ l := by
  rw [(perm_insertById x l).mem_iff, List.mem_cons]

theorem pairwise_insertById (x : Task) (l : List Task)
    (h : l.Pairwise (fun s t => t.id ≤ s.id)) :
    (insertById x l).Pairwise (fun s t => t.id ≤ s.id) := by
  induction l with
  | nil => exact List.pairwise_singleton _ _
  | cons y ys ih =>
    rw [List.pairwise_cons] at h
    obtain ⟨hy, hys⟩ := h
    rw [insertById]
    split
    case isTrue hle =>
      rw [List.pairwise_cons]
      refine ⟨?_, List.pairwise_cons.mpr ⟨hy, hys⟩⟩
      intro b hb
      rcases List.mem_cons.mp hb with rfl | hb
      · exact hle
      · exact le_trans (hy b hb) hle
    case isFalse hgt =>
      rw [List.pairwise_cons]
      refine ⟨?_, ih hys⟩
      intro b hb
      rcases (mem_insertById b x ys).mp hb with rfl | hb
      · exact le_of_not_le hgt
      · exact hy b hb

theorem perm_sortByIdDesc (l : List Task) :
    List.Perm (sortByIdDesc l) l := by
  induction l with
  | nil => exact List.Perm.refl _
  | cons x xs ih =>
    exact (perm_insertById x (sortByIdDesc xs)).trans (List.Perm.cons x ih)

theorem pairwise_sortByIdDesc (l : List Task) :
    (sortByIdDesc l).Pairwise (fun s t => t.id ≤ s.id) := by
  induction l with
  | nil => exact List.Pairwise.nil
  | cons x xs ih => exact pairwise_insertById x (sortByIdDesc xs) ih

/-- On a store with pairwise-distinct ids, the id-descending sort is
strictly descending. -/
theorem pairwise_lt_sortByIdDesc (tasks : List Task)
    (hids : (tasks.map Task.id).Nodup) :
    (sortByIdDesc tasks).Pairwise (fun s t => t.id < s.id) := by
  have hperm : List.Perm ((sortByIdDesc tasks).map Task.id)
      (tasks.map Task.id) := (perm_sortByIdDesc tasks).map Task.id
  have hnd : ((sortByIdDesc tasks).map Task.id).Nodup :=
    hperm.nodup_iff.mpr hids
  rw [List.Nodup, List.pairwise_map] at hnd
  exact ((pairwise_sortByIdDesc tasks).and hnd).imp
    (fun h => lt_of_le_of_ne h.1 (Ne.symm h.2))

/-- C5: `recent_tasks` is the at most 5 stored rows with the largest ids,
in descending id order: it has `min 5 |store|` rows, is strictly
id-descending, draws from the store, and every stored row left out has a
smaller id than every listed row. -/
theorem recent_tasks_spec (tasks : List Task) (peer : PeerUsers)
    (hids : (tasks.map Task.id).Nodup) :
    ((getTaskStats tasks peer).2.recent_tasks.length = min 5 tasks.length) ∧
    ((getTaskStats tasks peer).2.recent_tasks.Pairwise
      (fun s t => t.id < s.id)) ∧
    (∀ r ∈ (getTaskStats tasks peer).2.recent_tasks, r ∈ tasks) ∧
    (∀ t ∈ tasks, t ∉ (getTaskStats tasks peer).2.recent_tasks →
      ∀ r ∈ (getTaskStats tasks peer).2.recent_tasks, t.id < r.id) := by
  have hrec : (getTaskStats tasks peer).2.recent_tasks =
      (sortByIdDesc tasks).take 5 := rfl
  refine ⟨?_, ?_, ?_, ?_⟩
  · rw [hrec, List.length_take, (perm_sortByIdDesc tasks).length_eq]
  · rw [hrec]
    exact (pairwise_lt_sortByIdDesc tasks hids).sublist (List.take_sublist 5 _)
  · intro r hr
    rw [hrec] at hr
    exact (perm_sortByIdDesc tasks).mem_iff.mp (List.mem_of_mem_take hr)
  · intro t ht hnt r hr
    rw [hrec] at hnt hr
    have hts : t ∈ sortByIdDesc tasks :=
      (perm_sortByIdDesc tasks).mem_iff.mpr ht
    rw [← List.take_append_drop 5 (sortByIdDesc tasks)] at hts
    have htd : t ∈ (sortByIdDesc tasks).drop 5 := by
      rcases List.mem_append.mp hts with h | h
      · exact absurd h hnt
      · exact h
    have hpw := pairwise_lt_sortByIdDesc tasks hids
    rw [← List.take_append_drop 5 (sortByIdDesc tasks)] at hpw
    exact (List.pairwise_append.mp hpw).2.2 r hr t htd

/-- Witness for C5 at a concrete one-row store. -/
theorem recent_tasks_spec_witness :
    (getTaskStats [⟨1, "a", 1⟩] (.resp 200 [])).2.recent_tasks.length =
      min 5 1 :=
  (recent_tasks_spec [⟨1, "a", 1⟩] (PeerUsers.resp 200 []) (by decide)).1

/-- On a store with pairwise-distinct ids, deleting the row found by
`Task.query.get` is the same as filtering that id out. -/
theorem eraseP_eq_filter_of_nodup (store : List Task) (i : Int)
    (h : (store.map Task.id).Nodup) :
    store.eraseP (fun t => t.id == i) =
      store.filter (fun t => !(t.id == i)) := by
  induction store with
  | nil => rfl
  | cons t ts ih =>
    rw [List.map_cons, List.nodup_cons] at h
    obtain ⟨hni, hnd⟩ := h
    by_cases hti : t.id = i
    · have hall : List.filter (fun x => !(x.id == i)) ts = ts := by
        apply List.filter_eq_self.mpr
        intro x hx
        have hxi : x.id ≠ i := fun he =>
          hni (by rw [hti, ← he]; exact List.mem_map_of_mem Task.id hx)
        simp [hxi]
      simp [List.eraseP_cons, List.filter_cons, hti, hall]
    · simp [List.eraseP_cons, List.filter_cons, hti, ih hnd]

/-- Removing the row with id `i` does not affect whether a different id
`j` is present. -/
theorem any_filter_ne (store : List Task) (i j : Int) (hji : j ≠ i) :
    (store.filter (fun t => !(t.id == i))).any (fun t => t.id == j) =
      store.any (fun t => t.id == j) := by
  induction store with
  | nil => rfl
  | cons t ts ih =>
    by_cases hti : t.id = i
    · have htj : t.id ≠ j := by rw [hti]; exact Ne.symm hji
      simp [List.filter_cons, List.any_cons, hti, htj, ih]
      exact fun he => absurd he (Ne.symm hji)
    · simp [List.filter_cons, List.any_cons, hti, ih]

theorem filter_map_id_nodup (store : List Task) (p : Task → Bool)
    (h : (store.map Task.id).Nodup) :
    ((store.filter p).map Task.id).Nodup :=
  List.Nodup.sublist ((List.filter_sublist store).map Task.id) h

/-- The store left by the cleanup-specific loop: exactly the rows whose
id is not in the requested list. -/
theorem foldl_cleanupStep_store (l : List Int) (store : List Task) (c : Nat)
    (h : (store.map Task.id).Nodup) :
    (l.foldl cleanupStep (store, c)).1 =
      store.filter (fun t => !(l.contains t.id)) := by
  induction l generalizing store c with
  | nil =>
    rw [List.foldl_nil]
    exact (List.filter_eq_self.mpr (fun t _ => rfl)).symm
  | cons i rest ih =>
    rw [List.foldl_cons]
    by_cases hpres : store.any (fun t => t.id == i) = true
    · have hstep : cleanupStep (store, c) i =
          (store.filter (fun t => !(t.id == i)), c + 1) := by
        rw [cleanupStep, if_pos hpres, eraseP_eq_filter_of_nodup store i h]
      rw [hstep, ih _ _ (filter_map_id_nodup store _ h), List.filter_filter]
      apply List.filter_congr
      intro t _
      rw [List.contains_cons, Bool.not_or]
      exact Bool.and_comm _ _
    · have hstep : cleanupStep (store, c) i = (store, c) := by
        rw [cleanupStep, if_neg hpres]
      rw [hstep, ih _ _ h]
      apply List.filter_congr
      intro t ht
      have hfalse : (t.id == i) = false :=
        Bool.eq_false_iff.mpr
          (fun hh => hpres (List.any_eq_true.mpr ⟨t, ht, hh⟩))
      rw [List.contains_cons, hfalse, Bool.false_or]

/-- The count reported by the cleanup-specific loop: the number of
requested (pairwise-distinct) ids that were present. -/
theorem foldl_cleanupStep_count (l : List Int) (store : List Task) (c : Nat)
    (hstore : (store.map Task.id).Nodup) (hl : l.Nodup) :
    (l.foldl cleanupStep (store, c)).2 =
      c + (l.filter (fun i => store.any (fun t => t.id == i))).length := by
  induction l generalizing store c with
  | nil =>
    rw [List.foldl_nil, List.filter_nil, List.length_nil]
    rfl
  | cons i rest ih =>
    rw [List.nodup_cons] at hl
    obtain ⟨hir, hrest⟩ := hl
    rw [List.foldl_cons, List.filter_cons]
    by_cases hpres : store.any (fun t => t.id == i) = true
    · have hstep : cleanupStep (store, c) i =
          (store.filter (fun t => !(t.id == i)), c + 1) := by
        rw [cleanupStep, if_pos hpres, eraseP_eq_filter_of_nodup store i hstore]
      rw [hstep, ih _ _ (filter_map_id_nodup store _ hstore) hrest]
      have hfc : rest.filter (fun j =>
          (store.filter (fun t => !(t.id == i))).any (fun t => t.id == j)) =
          rest.filter (fun j => store.any (fun t => t.id == j)) := by
        apply List.filter_congr
        intro j hj
        exact any_filter_ne store i j (fun he => hir (he ▸ hj))
      rw [hfc, hpres, if_pos rfl, List.length_cons]
      omega
    · have hstep : cleanupStep (store, c) i = (store, c) := by
        rw [cleanupStep, if_neg hpres]
      have hfalse : store.any (fun t => t.id == i) = false :=
        Bool.eq_false_iff.mpr hpres
      rw [hstep, ih _ _ hstore hrest, hfalse, if_neg (by simp)]

/-- C7: `DELETE /tasks/cleanup-specific` with a list of ids answers 200,
deletes exactly the stored rows whose ids are listed (absent ids are
no-ops), reports as deleted count the number of listed ids that were
present, and in particular with one existing and one nonexistent id it
deletes exactly the existing row and reports a count of 1. -/
theorem cleanup_specific_deletes_exactly (store : List Task) (ids : List Int)
    (hstore : (store.map Task.id).Nodup) (hids : ids.Nodup)
    (tk : Task) (j : Int) (hj : j ≠ tk.id) :
    ((cleanupSpecific store (.ids ids)).1 = 200) ∧
    ((cleanupSpecific store (.ids ids)).2.1 =
      store.filter (fun t => !(ids.contains t.id))) ∧
    ((cleanupSpecific store (.ids ids)).2.2 =
      (ids.filter (fun i => store.any (fun t => t.id == i))).length) ∧
    (cleanupSpecific [tk] (.ids [tk.id, j]) = (200, [], 1)) := by
  refine ⟨rfl, ?_, ?_, ?_⟩
  · exact foldl_cleanupStep_store ids store 0 hstore
  · have := foldl_cleanupStep_count ids store 0 hstore hids
    rw [Nat.zero_add] at this
    exact this
  · show (200, (([tk.id, j].foldl cleanupStep ([tk], 0)).1,
      ([tk.id, j].foldl cleanupStep ([tk], 0)).2)) = (200, [], 1)
    rw [List.foldl_cons, List.foldl_cons, List.foldl_nil]
    have h1 : cleanupStep ([tk], 0) tk.id = ([], 1) := by
      rw [cleanupStep]
      rw [if_pos (by simp [List.any_cons])]
      rw [List.eraseP_cons]
      simp
    rw [h1]
    have h2 : cleanupStep ([], 1) j = ([], 1) := by
      rw [cleanupStep, if_neg (by simp)]
    rw [h2]

/-- Witness for C7 at concrete inputs: one stored row, a request listing
its id and a nonexistent one. -/
theorem cleanup_specific_deletes_exactly_witness :
    cleanupSpecific [⟨1, "a", 2⟩] (.ids [1, 9]) = (200, [], 1) :=
  (cleanup_specific_deletes_exactly [⟨1, "a", 2⟩] [1, 9] (by decide) (by decide)
    ⟨1, "a", 2⟩ 9 (by decide)).2.2.2

end TaskService
